import Mathlib

/-!
Verification of the stopwatch core logic of `src/src/App.tsx`.

The component's core state is the React state `time : number` (milliseconds),
`isRunning : boolean`, `lapTimes : LapTime[]` together with the refs
`intervalRef` (the periodic tick handle), `startTimeRef` and `lapCounter`.
Wall-clock values (`Date.now()`) and millisecond durations are modelled as
`Int`; the interval handle is modelled as the boolean `intervalActive`
(`intervalRef.current ≠ null`).  The periodic tick callback
`setTime(Date.now() - startTimeRef.current)` fires only while the interval
is installed, which the event-loop semantics of `setInterval`/`clearInterval`
guarantee; it is modelled as the `tick` operation guarded by `intervalActive`.
-/

namespace Stopwatch

/-- LapTime record from `App.tsx`: `{id, lapNumber, lapTime, totalTime}`.
`lapTime` is the split duration, `totalTime` the cumulative elapsed time at
the moment of recording. -/
structure LapTime where
  id : Int
  lapNumber : Nat
  lapTime : Int
  totalTime : Int
deriving Repr, DecidableEq

/-- Core component state: `time`, `isRunning`, `lapTimes` plus the refs
`intervalRef` (as a boolean), `startTimeRef` and `lapCounter`. -/
structure AppState where
  time : Int
  isRunning : Bool
  lapTimes : List LapTime
  intervalActive : Bool
  startTime : Int
  lapCounter : Nat
deriving Repr, DecidableEq

/-- Initial state: `useState(0)`, `useState(false)`, `useState([])`,
`intervalRef = null`, `startTimeRef = 0`, `lapCounter = 1`. -/
def initState : AppState :=
  { time := 0, isRunning := false, lapTimes := [], intervalActive := false,
    startTime := 0, lapCounter := 1 }

/-- Model of `startStopwatch` at wall-clock instant `now`: if not running,
set `startTimeRef = now - time`, install the interval and set running. -/
def startStopwatch (now : Int) (s : AppState) : AppState :=
  if s.isRunning = true then s
  else { s with startTime := now - s.time, intervalActive := true, isRunning := true }

/-- Model of one firing of the interval callback at wall-clock instant `now`:
`setTime(Date.now() - startTimeRef.current)`.  The callback exists only while
the interval is installed. -/
def tick (now : Int) (s : AppState) : AppState :=
  if s.intervalActive = true then { s with time := now - s.startTime } else s

/-- Model of `pauseStopwatch`: clear the interval and set `isRunning` false. -/
def pauseStopwatch (s : AppState) : AppState :=
  { s with intervalActive := false, isRunning := false }

/-- Model of `resetStopwatch`: clear the interval, zero the time, stop,
empty the lap list and reset the lap counter to 1. -/
def resetStopwatch (s : AppState) : AppState :=
  { s with intervalActive := false, time := 0, isRunning := false,
           lapTimes := [], lapCounter := 1 }

/-- Model of `recordLap` (the new entry's `id` field, `Date.now()` in the
source, is passed as a parameter): guarded by `isRunning && time > 0`,
appends `{id, lapNumber := lapCounter, lapTime := time - last.totalTime
(or time if empty), totalTime := time}` and increments the counter. -/
def recordLap (id : Int) (s : AppState) : AppState :=
  if s.isRunning = true ∧ 0 < s.time then
    let newLap : LapTime :=
      { id := id, lapNumber := s.lapCounter,
        lapTime := match s.lapTimes.getLast? with
          | some l => s.time - l.totalTime
          | none => s.time,
        totalTime := s.time }
    { s with lapTimes := s.lapTimes ++ [newLap], lapCounter := s.lapCounter + 1 }
  else s

/-- Model of `clearLaps`: empty the lap list and reset the counter to 1. -/
def clearLaps (s : AppState) : AppState :=
  { s with lapTimes := [], lapCounter := 1 }

/-- Model of the unmount cleanup of the teardown `useEffect`: clear the
interval if installed. -/
def teardown (s : AppState) : AppState :=
  { s with intervalActive := false }

/-- Events the component reacts to.  `start` and `tick` carry the
`Date.now()` value observed at that instant; `lap` carries the `Date.now()`
value used as the entry's `id`. -/
inductive Event where
  | start (now : Int)
  | tick (now : Int)
  | pause
  | reset
  | lap (id : Int)
  | clear
  | teardown
deriving Repr, DecidableEq

/-- Single transition of the component for one event. -/
def step (s : AppState) (e : Event) : AppState :=
  match e with
  | .start n => startStopwatch n s
  | .tick n => tick n s
  | .pause => pauseStopwatch s
  | .reset => resetStopwatch s
  | .lap id => recordLap id s
  | .clear => clearLaps s
  | .teardown => teardown s

/-- Run a sequence of events from the initial state. -/
def runTrace (evs : List Event) : AppState :=
  evs.foldl step initState

/-- A state is reachable when some event sequence produces it. -/
def Reachable (s : AppState) : Prop :=
  ∃ evs, runTrace evs = s

/-- Wall-clock value an event observes, when it observes one. -/
def eventNow? : Event → Option Int
  | .start n => some n
  | .tick n => some n
  | _ => none

/-- Clock bound after an event: the event's observed instant, if any. -/
def nextClock (c : Int) (e : Event) : Int :=
  (eventNow? e).getD c

/-- A trace uses a monotone wall clock from lower bound `c`: every observed
`Date.now()` value is at least the previous one. -/
def monoFrom (c : Int) : List Event → Bool
  | [] => true
  | e :: rest => decide (c ≤ nextClock c e) && monoFrom (nextClock c e) rest

/-- Cumulative duration of the last lap entry, or 0 when the list is empty. -/
def lastTotal (l : List LapTime) : Int :=
  (l.getLast?.map (fun x => x.totalTime)).getD 0

/-- Sum of the split durations of all lap entries. -/
def sumSplits (l : List LapTime) : Int :=
  (l.map (fun x => x.lapTime)).sum

/-- Cumulative durations are non-decreasing in chronological order. -/
def chainLe (l : List LapTime) : Prop :=
  List.Chain' (fun a b => a.totalTime ≤ b.totalTime) l

/-- Cumulative durations are strictly increasing in chronological order. -/
def chainLt (l : List LapTime) : Prop :=
  List.Chain' (fun a b => a.totalTime < b.totalTime) l

/-- Core observable state named by the spec: elapsed time, run state,
lap history and sequence counter. -/
def core (s : AppState) : Int × Bool × List LapTime × Nat :=
  (s.time, s.isRunning, s.lapTimes, s.lapCounter)

/-- Model of JavaScript `s.padStart(2, '0')`: prepend zeros until the
length reaches 2. -/
def padStart2 (s : String) : String :=
  if s.length < 2 then String.mk (List.replicate (2 - s.length) '0') ++ s else s

/-- Model of `formatTime` from `App.tsx`: minutes, seconds and centiseconds
fields, each `toString().padStart(2, '0')`, joined as `MM:SS.CC`.  The
source's `timeMs` is the non-negative React `time` state. -/
def formatTime (timeMs : Nat) : String :=
  let minutes := timeMs / 60000
  let seconds := timeMs % 60000 / 1000
  let milliseconds := timeMs % 1000 / 10
  padStart2 (toString minutes) ++ ":" ++ padStart2 (toString seconds)
    ++ "." ++ padStart2 (toString milliseconds)

/-- Zero-padding as the spec words it: a decimal string is zero-padded to at
least 2 digits, left unchanged when it already has 2 or more. -/
def zeroPad2 (s : String) : String :=
  if 2 ≤ s.length then s else (List.replicate (2 - s.length) '0').asString ++ s

/-- Holds when the final clock lower bound after a trace is the last
observed instant, or the initial bound when none is observed. -/
def finalClock (c : Int) : List Event → Int
  | [] => c
  | e :: rest => finalClock (nextClock c e) rest

/-- Bookkeeping invariant tying the lap counter and the recorded lap
numbers to the history length. -/
def counterOk (s : AppState) : Prop :=
  s.lapCounter = s.lapTimes.length + 1 ∧
  s.lapTimes.map (fun l => l.lapNumber) = List.range' 1 s.lapTimes.length

/-- Full history invariant relative to a wall-clock lower bound `c`:
elapsed time is non-negative; while running, `startTime + time` is at most
the clock bound (so later ticks only increase `time`); an installed
interval implies running; cumulative durations are non-decreasing, bounded
by the current elapsed time, and split durations telescope to the last
cumulative duration. -/
def Inv (s : AppState) (c : Int) : Prop :=
  0 ≤ s.time ∧
  (s.isRunning = true → s.startTime + s.time ≤ c) ∧
  (s.intervalActive = true → s.isRunning = true) ∧
  chainLe s.lapTimes ∧
  lastTotal s.lapTimes ≤ s.time ∧
  sumSplits s.lapTimes = lastTotal s.lapTimes

/-- Sample trace: start at instant 0, one tick at instant 5, one lap. -/
def demoTrace : List Event := [Event.start 0, Event.tick 5, Event.lap 1]

/-- Sample reachable state: running, `time = 5`, one lap `⟨1, 1, 5, 5⟩`. -/
def demoRun : AppState := runTrace demoTrace

/-- Trace recording three laps at cumulative times 1000, 2500 and 4000. -/
def threeLapTrace : List Event :=
  [Event.start 0, Event.tick 1000, Event.lap 1, Event.tick 2500,
   Event.lap 2, Event.tick 4000, Event.lap 3]

theorem padStart2_eq_zeroPad2 (s : String) : padStart2 s = zeroPad2 s := by
  unfold padStart2 zeroPad2
  rcases Nat.lt_or_ge s.length 2 with h | h
  · rw [if_pos h, if_neg (by omega)]; rfl
  · rw [if_neg (by omega), if_pos h]

theorem zeroPad2_length (s : String) (h : s.length ≤ 2) :
    (zeroPad2 s).length = 2 := by
  unfold zeroPad2
  rcases Nat.lt_or_ge s.length 2 with h2 | h2
  · rw [if_neg (by omega), String.length_append, List.length_asString,
      List.length_replicate]
    omega
  · rw [if_pos h2]; omega

theorem zeroPad2_ge_two (s : String) : 2 ≤ (zeroPad2 s).length := by
  unfold zeroPad2
  rcases Nat.lt_or_ge s.length 2 with h2 | h2
  · rw [if_neg (by omega), String.length_append, List.length_asString,
      List.length_replicate]
    omega
  · rw [if_pos h2]; omega

theorem repr_length_le_two : ∀ n, n < 100 → (Nat.repr n).length ≤ 2 := by
  decide

/-- C3: for every non-negative `t`, `formatTime t` is `MM:SS.CC` where
`MM = t / 60000` zero-padded to at least 2 digits (3 or more digits allowed
past 99 minutes), `SS = t % 60000 / 1000` and `CC = t % 1000 / 10` each
zero-padded to exactly 2 digits, with truncation at each field; in
particular `formatTime 61005 = "01:01.00"` and `formatTime 999 = "00:00.99"`. -/
theorem formatTime_spec (t : Nat) :
    formatTime t =
      zeroPad2 (toString (t / 60000)) ++ ":" ++ zeroPad2 (toString (t % 60000 / 1000))
        ++ "." ++ zeroPad2 (toString (t % 1000 / 10)) ∧
    2 ≤ (zeroPad2 (toString (t / 60000))).length ∧
    (zeroPad2 (toString (t % 60000 / 1000))).length = 2 ∧
    (zeroPad2 (toString (t % 1000 / 10))).length = 2 ∧
    formatTime 61005 = "01:01.00" ∧ formatTime 999 = "00:00.99" := by
  refine ⟨?_, zeroPad2_ge_two _, ?_, ?_, rfl, rfl⟩
  · show padStart2 (toString (t / 60000)) ++ ":" ++ padStart2 (toString (t % 60000 / 1000))
        ++ "." ++ padStart2 (toString (t % 1000 / 10)) = _
    rw [padStart2_eq_zeroPad2, padStart2_eq_zeroPad2, padStart2_eq_zeroPad2]
  · exact zeroPad2_length _ (repr_length_le_two _ (by omega))
  · exact zeroPad2_length _ (repr_length_le_two _ (by omega))

theorem counterOk_step (s : AppState) (e : Event) (h : counterOk s) :
    counterOk (step s e) := by
  obtain ⟨h1, h2⟩ := h
  cases e with
  | start n =>
      show counterOk (startStopwatch n s)
      unfold startStopwatch
      split
      · exact ⟨h1, h2⟩
      · exact ⟨h1, h2⟩
  | tick n =>
      show counterOk (tick n s)
      unfold tick
      split
      · exact ⟨h1, h2⟩
      · exact ⟨h1, h2⟩
  | pause => exact ⟨h1, h2⟩
  | reset => exact ⟨rfl, rfl⟩
  | clear => exact ⟨rfl, rfl⟩
  | teardown => exact ⟨h1, h2⟩
  | lap id =>
      show counterOk (recordLap id s)
      unfold recordLap
      split
      · refine ⟨?_, ?_⟩
        · show s.lapCounter + 1 = (s.lapTimes ++ [_]).length + 1
          rw [List.length_append, h1]
          rfl
        · show (s.lapTimes ++ [_]).map (fun (l : LapTime) => l.lapNumber) =
            List.range' 1 (s.lapTimes ++ [_]).length
          rw [List.map_append, List.length_append]
          show s.lapTimes.map (fun (l : LapTime) => l.lapNumber) ++ [s.lapCounter] =
            List.range' 1 (s.lapTimes.length + 1)
          rw [List.range'_concat, h2, h1]
          simp [Nat.add_comm]
      · exact ⟨h1, h2⟩

theorem counterOk_foldl (evs : List Event) :
    ∀ s, counterOk s → counterOk (evs.foldl step s) := by
  induction evs with
  | nil => intro s h; exact h
  | cons e rest ih =>
      intro s h
      rw [List.foldl_cons]
      exact ih _ (counterOk_step s e h)

theorem counterOk_reachable (s : AppState) (h : Reachable s) : counterOk s := by
  obtain ⟨evs, rfl⟩ := h
  exact counterOk_foldl evs initState ⟨rfl, rfl⟩

/-- C9: in every reachable state the lap counter equals the history length
plus 1, and the `i`-th entry (0-based, chronological) has `lapNumber`
`i + 1`; `recordLap`, `clearLaps` and `resetStopwatch` keep counter and
history in step. -/
theorem lap_numbering_invariant (s : AppState) (h : Reachable s) :
    s.lapCounter = s.lapTimes.length + 1 ∧
    ∀ i : Nat, ∀ hi : i < s.lapTimes.length,
      (s.lapTimes.get ⟨i, hi⟩).lapNumber = i + 1 := by
  obtain ⟨hc, hmap⟩ := counterOk_reachable s h
  refine ⟨hc, fun i hi => ?_⟩
  have h1 : (s.lapTimes.map (fun l => l.lapNumber))[i]? =
      (List.range' 1 s.lapTimes.length)[i]? := by rw [hmap]
  rw [List.getElem?_map, List.getElem?_range' 1 1 hi,
    List.getElem?_eq_getElem hi] at h1
  have h2 : (s.lapTimes[i]).lapNumber = 1 + 1 * i := by simpa using h1
  have h3 : s.lapTimes.get ⟨i, hi⟩ = s.lapTimes[i] := rfl
  rw [h3]
  omega

/-- C9 witness at a concrete reachable state with one lap entry. -/
theorem lap_numbering_invariant_witness :
    demoRun.lapCounter = demoRun.lapTimes.length + 1 ∧
    ∀ i : Nat, ∀ hi : i < demoRun.lapTimes.length,
      (demoRun.lapTimes.get ⟨i, hi⟩).lapNumber = i + 1 :=
  lap_numbering_invariant demoRun ⟨demoTrace, rfl⟩

/-- C4: `startStopwatch` is a no-op while running; from a stopped state with
accumulated time `A = s.time` it sets the origin to `now - A`, so a later
tick at instant `m` samples `m - now + A`; concretely, start at 0, tick at
500, pause, start at 700, tick at 1000, pause gives elapsed time 800. -/
theorem startStopwatch_spec (s : AppState) (n m : Int) :
    (s.isRunning = true → startStopwatch n s = s) ∧
    (s.isRunning = false → (tick m (startStopwatch n s)).time = m - n + s.time) ∧
    (runTrace [Event.start 0, Event.tick 500, Event.pause,
               Event.start 700, Event.tick 1000, Event.pause]).time = 800 := by
  refine ⟨fun h => ?_, fun h => ?_, by decide⟩
  · unfold startStopwatch
    rw [if_pos h]
  · have hs : startStopwatch n s =
        { s with startTime := n - s.time, intervalActive := true, isRunning := true } := by
      unfold startStopwatch
      rw [if_neg (by simp [h])]
    rw [hs]
    unfold tick
    rw [if_pos rfl]
    show m - (n - s.time) = m - n + s.time
    omega

/-- C4 witness: starting the fresh instance at instant 0 and ticking at
instant 500 samples 500 ms; the running-state no-op at the demo state. -/
theorem startStopwatch_spec_witness :
    (tick 500 (startStopwatch 0 initState)).time = 500 - 0 + initState.time ∧
    startStopwatch 9 demoRun = demoRun :=
  ⟨(startStopwatch_spec initState 0 500).2.1 rfl,
   (startStopwatch_spec demoRun 9 0).1 (by decide)⟩

/-- C5: `resetStopwatch` from any state yields the stopped state with zero
elapsed time and empty history, and a subsequent start, tick and lap behave
as from a fresh instance: the recorded lap has sequence number 1. -/
theorem resetStopwatch_spec (s : AppState) (n t id : Int) :
    (resetStopwatch s).isRunning = false ∧
    (resetStopwatch s).time = 0 ∧
    (resetStopwatch s).lapTimes = [] ∧
    (resetStopwatch s).lapCounter = 1 ∧
    (0 < t →
      (recordLap id (tick (n + t) (startStopwatch n (resetStopwatch s)))).lapTimes =
        [{ id := id, lapNumber := 1, lapTime := t, totalTime := t }]) := by
  refine ⟨rfl, rfl, rfl, rfl, fun ht => ?_⟩
  have hcalc : n + t - (n - (0 : Int)) = t := by omega
  simp [resetStopwatch, startStopwatch, tick, recordLap, hcalc, ht]

/-- C5 witness: reset the demo state, restart at instant 10, tick at 11,
lap: the single entry has sequence number 1 and durations 1. -/
theorem resetStopwatch_spec_witness :
    (recordLap 3 (tick 11 (startStopwatch 10 (resetStopwatch demoRun)))).lapTimes =
      [{ id := 3, lapNumber := 1, lapTime := 1, totalTime := 1 }] :=
  (resetStopwatch_spec demoRun 10 1 3).2.2.2.2 (by decide)

/-- C6: operations invoked with an unsatisfied precondition leave the core
state (elapsed time, run state, lap history, sequence counter) unchanged:
`recordLap` while stopped, `recordLap` at zero elapsed time,
`startStopwatch` while running, and `pauseStopwatch` while stopped. -/
theorem invalid_calls_are_noops (s : AppState) (n id : Int) :
    (s.isRunning = false → recordLap id s = s) ∧
    (s.isRunning = true → s.time = 0 → recordLap id s = s) ∧
    (s.isRunning = true → startStopwatch n s = s) ∧
    (s.isRunning = false → core (pauseStopwatch s) = core s) := by
  refine ⟨fun h => ?_, fun h h0 => ?_, fun h => ?_, fun h => ?_⟩
  · unfold recordLap
    rw [if_neg (by simp [h])]
  · unfold recordLap
    rw [if_neg (by simp [h0])]
  · unfold startStopwatch
    rw [if_pos h]
  · unfold pauseStopwatch core
    rw [h]

/-- C6 witness: the four no-ops at concrete states (fresh instance, and a
running instance with zero elapsed time). -/
theorem invalid_calls_are_noops_witness :
    recordLap 7 initState = initState ∧
    recordLap 7 (startStopwatch 0 initState) = startStopwatch 0 initState ∧
    startStopwatch 5 demoRun = demoRun ∧
    core (pauseStopwatch initState) = core initState :=
  ⟨(invalid_calls_are_noops initState 0 7).1 rfl,
   (invalid_calls_are_noops (startStopwatch 0 initState) 0 7).2.1 (by decide) (by decide),
   (invalid_calls_are_noops demoRun 5 7).2.2.1 (by decide),
   (invalid_calls_are_noops initState 0 7).2.2.2 rfl⟩

/-- C7: `clearLaps` empties the history and resets the counter to 1, so the
next recorded lap has sequence number 1, while elapsed time and run state
are untouched. -/
theorem clearLaps_spec (s : AppState) (id : Int) :
    (clearLaps s).lapTimes = [] ∧
    (clearLaps s).lapCounter = 1 ∧
    (clearLaps s).isRunning = s.isRunning ∧
    (clearLaps s).time = s.time ∧
    (s.isRunning = true → 0 < s.time →
      (recordLap id (clearLaps s)).lapTimes.map (fun l => l.lapNumber) = [1]) := by
  refine ⟨rfl, rfl, rfl, rfl, fun h h0 => ?_⟩
  simp [recordLap, clearLaps, h, h0]

/-- C7 witness: clearing the demo state then recording a lap yields a
single entry with sequence number 1. -/
theorem clearLaps_spec_witness :
    (recordLap 4 (clearLaps demoRun)).lapTimes.map (fun l => l.lapNumber) = [1] :=
  (clearLaps_spec demoRun 4).2.2.2.2 (by decide) (by decide)

/-- C10: `recordLap` while running with the same strictly positive elapsed
value as the last entry's cumulative duration still appends an entry, with
split duration 0 and the same cumulative duration. -/
theorem recordLap_same_elapsed (s : AppState) (id : Int) (l : LapTime)
    (h1 : s.isRunning = true) (h2 : 0 < s.time)
    (h3 : s.lapTimes.getLast? = some l) (h4 : l.totalTime = s.time) :
    (recordLap id s).lapTimes =
      s.lapTimes ++ [{ id := id, lapNumber := s.lapCounter,
                       lapTime := 0, totalTime := l.totalTime }] := by
  unfold recordLap
  rw [if_pos ⟨h1, h2⟩]
  simp [h3, h4]

/-- C10 witness: a second lap at the demo state (elapsed still 5) appends
an entry with split 0 and cumulative 5. -/
theorem recordLap_same_elapsed_witness :
    (recordLap 2 demoRun).lapTimes =
      demoRun.lapTimes ++ [{ id := 2, lapNumber := demoRun.lapCounter,
                             lapTime := 0, totalTime := 5 }] :=
  recordLap_same_elapsed demoRun 2 { id := 1, lapNumber := 1, lapTime := 5, totalTime := 5 }
    (by decide) (by decide) (by decide) (by decide)

theorem ticks_noop_of_inactive (s : AppState) (h : s.intervalActive = false) :
    ∀ ns : List Int, ns.foldl (fun st m => tick m st) s = s := by
  intro ns
  induction ns with
  | nil => rfl
  | cons m ms ih =>
      rw [List.foldl_cons]
      have hmt : tick m s = s := by
        unfold tick
        rw [if_neg (by simp [h])]
      rw [hmt, ih]

/-- C8: `pauseStopwatch`, `resetStopwatch` and the unmount cleanup all clear
the interval handle, and a tick on a state whose interval is cleared does
not mutate anything; hence any sequence of tick firings after a pause
leaves the state exactly as `pauseStopwatch` left it. -/
theorem tick_cancellation (s : AppState) (n : Int) (ns : List Int) :
    (pauseStopwatch s).intervalActive = false ∧
    (resetStopwatch s).intervalActive = false ∧
    (teardown s).intervalActive = false ∧
    (s.intervalActive = false → tick n s = s) ∧
    ns.foldl (fun st m => tick m st) (pauseStopwatch s) = pauseStopwatch s := by
  refine ⟨rfl, rfl, rfl, fun h => ?_, ticks_noop_of_inactive _ rfl ns⟩
  unfold tick
  rw [if_neg (by simp [h])]

/-- C8 witness: a tick at instant 99 after pausing the demo state changes
nothing. -/
theorem tick_cancellation_witness :
    tick 99 (pauseStopwatch demoRun) = pauseStopwatch demoRun :=
  (tick_cancellation (pauseStopwatch demoRun) 99 []).2.2.2.1 rfl

theorem lastTotal_append (l : List LapTime) (a : LapTime) :
    lastTotal (l ++ [a]) = a.totalTime := by
  unfold lastTotal
  rw [List.getLast?_concat]
  rfl

theorem sumSplits_append (l : List LapTime) (a : LapTime) :
    sumSplits (l ++ [a]) = sumSplits l + a.lapTime := by
  unfold sumSplits
  rw [List.map_append, List.sum_append]
  simp

theorem lastTotal_of_getLast (l : List LapTime) (x : LapTime)
    (h : l.getLast? = some x) : lastTotal l = x.totalTime := by
  unfold lastTotal
  rw [h]
  rfl

theorem chainLe_append (l : List LapTime) (a : LapTime)
    (h : chainLe l) (h2 : lastTotal l ≤ a.totalTime) : chainLe (l ++ [a]) := by
  unfold chainLe at h ⊢
  rw [List.chain'_append]
  refine ⟨h, List.chain'_singleton _, fun x hx y hy => ?_⟩
  rw [Option.mem_def] at hx hy
  simp only [List.head?_cons, Option.some.injEq] at hy
  subst hy
  rw [← lastTotal_of_getLast l x hx]
  exact h2

theorem Inv_init (c : Int) : Inv initState c := by
  refine ⟨le_refl 0, fun h => Bool.noConfusion h, fun h => Bool.noConfusion h,
    List.chain'_nil, ?_, rfl⟩
  show lastTotal [] ≤ 0
  exact le_refl 0

theorem Inv_step (s : AppState) (c : Int) (e : Event) (hinv : Inv s c)
    (hc : c ≤ nextClock c e) : Inv (step s e) (nextClock c e) := by
  obtain ⟨ht0, htc, hia, hch, hlt, hsum⟩ := hinv
  cases e with
  | start n =>
      have hn : nextClock c (Event.start n) = n := rfl
      rw [hn] at hc ⊢
      show Inv (startStopwatch n s) n
      unfold startStopwatch
      split
      · exact ⟨ht0, fun h => le_trans (htc h) hc, hia, hch, hlt, hsum⟩
      · refine ⟨ht0, fun _ => ?_, fun _ => rfl, hch, hlt, hsum⟩
        show n - s.time + s.time ≤ n
        omega
  | tick n =>
      have hn : nextClock c (Event.tick n) = n := rfl
      rw [hn] at hc ⊢
      show Inv (tick n s) n
      unfold tick
      split
      · next hact =>
          have hrun := hia hact
          have hbound : s.startTime + s.time ≤ c := htc hrun
          refine ⟨?_, fun _ => ?_, fun _ => hrun, hch, ?_, hsum⟩
          · show 0 ≤ n - s.startTime
            omega
          · show s.startTime + (n - s.startTime) ≤ n
            omega
          · show lastTotal s.lapTimes ≤ n - s.startTime
            omega
      · exact ⟨ht0, fun h => le_trans (htc h) hc, hia, hch, hlt, hsum⟩
  | pause =>
      exact ⟨ht0, fun h => Bool.noConfusion h, fun h => Bool.noConfusion h,
        hch, hlt, hsum⟩
  | reset =>
      refine ⟨le_refl 0, fun h => Bool.noConfusion h,
        fun h => Bool.noConfusion h, List.chain'_nil, ?_, rfl⟩
      show lastTotal [] ≤ 0
      exact le_refl 0
  | clear =>
      refine ⟨ht0, htc, hia, List.chain'_nil, ?_, rfl⟩
      show lastTotal [] ≤ s.time
      show (0 : Int) ≤ s.time
      exact ht0
  | teardown =>
      exact ⟨ht0, htc, fun h => Bool.noConfusion h, hch, hlt, hsum⟩
  | lap id =>
      show Inv (recordLap id s) c
      unfold recordLap
      split
      · next hcond =>
          refine ⟨ht0, htc, hia, ?_, ?_, ?_⟩
          · exact chainLe_append _ _ hch hlt
          · show lastTotal (s.lapTimes ++ [_]) ≤ s.time
            rw [lastTotal_append]
          · show sumSplits (s.lapTimes ++ [_]) = lastTotal (s.lapTimes ++ [_])
            rw [lastTotal_append, sumSplits_append]
            cases hl : s.lapTimes.getLast? with
            | none =>
                have : s.lapTimes = [] := List.getLast?_eq_none_iff.mp hl
                simp [this, sumSplits, hl]
            | some x =>
                have hlast : lastTotal s.lapTimes = x.totalTime :=
                  lastTotal_of_getLast _ _ hl
                rw [hsum, hlast]
                simp [hl]
      · exact ⟨ht0, htc, hia, hch, hlt, hsum⟩

theorem Inv_foldl : ∀ (evs : List Event) (s : AppState) (c : Int),
    Inv s c → monoFrom c evs = true → Inv (evs.foldl step s) (finalClock c evs) := by
  intro evs
  induction evs with
  | nil => intro s c h _; exact h
  | cons e rest ih =>
      intro s c h hmono
      rw [List.foldl_cons]
      unfold monoFrom at hmono
      rw [Bool.and_eq_true, decide_eq_true_iff] at hmono
      exact ih _ _ (Inv_step s c e h hmono.1) hmono.2

/-- C1 (amended): in every state reached by an event trace whose observed
wall-clock instants are non-decreasing, the cumulative durations of the lap
history are non-decreasing in chronological order, and the sum of all split
durations equals the last entry's cumulative duration. -/
theorem lap_history_invariant (evs : List Event) (c : Int)
    (h : monoFrom c evs = true) :
    chainLe (runTrace evs).lapTimes ∧
    sumSplits (runTrace evs).lapTimes = lastTotal (runTrace evs).lapTimes := by
  have hinv := Inv_foldl evs initState c (Inv_init c) h
  exact ⟨hinv.2.2.2.1, hinv.2.2.2.2.2⟩

/-- C1 witness: the demo trace is clock-monotone and its final history
satisfies the invariant. -/
theorem lap_history_invariant_witness :
    chainLe (runTrace demoTrace).lapTimes ∧
    sumSplits (runTrace demoTrace).lapTimes = lastTotal (runTrace demoTrace).lapTimes :=
  lap_history_invariant demoTrace 0 (by decide)

/-- C1 counterexample to strictness: the clock-monotone trace start 0,
tick 5, lap, lap reaches a state whose two lap entries share cumulative
duration 5, so `cumulativeDuration` is not strictly increasing. -/
theorem lap_history_strict_counterexample :
    monoFrom 0 [Event.start 0, Event.tick 5, Event.lap 1, Event.lap 2] = true ∧
    ¬ chainLt (runTrace [Event.start 0, Event.tick 5, Event.lap 1, Event.lap 2]).lapTimes := by
  constructor
  · decide
  · intro hchain
    unfold chainLt at hchain
    rw [show (runTrace [Event.start 0, Event.tick 5, Event.lap 1, Event.lap 2]).lapTimes =
        [{ id := 1, lapNumber := 1, lapTime := 5, totalTime := 5 },
         { id := 2, lapNumber := 2, lapTime := 0, totalTime := 5 }] from rfl] at hchain
    rw [List.chain'_cons] at hchain
    exact absurd hchain.1 (by decide)

/-- C2: in a reachable state with the engine running and strictly positive
elapsed time, `recordLap` appends exactly one entry whose sequence number
is the previous entry count plus 1, whose cumulative duration is the
current elapsed time, and whose split duration is the elapsed time minus
the last entry's cumulative duration (or minus 0 when the history is
empty); laps at cumulative times 1000, 2500, 4000 give split durations
[1000, 1500, 1500] and sequence numbers [1, 2, 3]. -/
theorem recordLap_spec (s : AppState) (id : Int)
    (hr : Reachable s) (h1 : s.isRunning = true) (h2 : 0 < s.time) :
    (recordLap id s).lapTimes =
      s.lapTimes ++ [{ id := id, lapNumber := s.lapTimes.length + 1,
                       lapTime := s.time - lastTotal s.lapTimes,
                       totalTime := s.time }] ∧
    (runTrace threeLapTrace).lapTimes.map (fun l => l.lapTime) = [1000, 1500, 1500] ∧
    (runTrace threeLapTrace).lapTimes.map (fun l => l.lapNumber) = [1, 2, 3] := by
  have hc : s.lapCounter = s.lapTimes.length + 1 := (counterOk_reachable s hr).1
  refine ⟨?_, by decide, by decide⟩
  unfold recordLap
  rw [if_pos ⟨h1, h2⟩]
  cases hl : s.lapTimes.getLast? with
  | none =>
      have hnil : s.lapTimes = [] := List.getLast?_eq_none_iff.mp hl
      simp only [hl, hc]
      simp [lastTotal, hl]
  | some x =>
      simp only [hl, hc]
      simp [lastTotal, hl]

/-- C2 witness: recording a lap at the demo state (running, elapsed 5, one
previous entry with cumulative 5) appends the entry with sequence number 2,
split 0 and cumulative 5. -/
theorem recordLap_spec_witness :
    (recordLap 9 demoRun).lapTimes =
      demoRun.lapTimes ++ [{ id := 9, lapNumber := demoRun.lapTimes.length + 1,
                             lapTime := demoRun.time - lastTotal demoRun.lapTimes,
                             totalTime := demoRun.time }] :=
  (recordLap_spec demoRun 9 ⟨demoTrace, rfl⟩ (by decide) (by decide)).1

end Stopwatch
